import Mathlib

/-!
Shallow embedding of `src/ServerAutoShutdown.cpp` (mod-server-auto-shutdown).

Timestamps are modelled as `Nat` seconds since the Unix epoch, with local
calendar time identified with UTC (no timezone offset or DST): `mktime` and
`TimeBreakdown` then become pure div/mod arithmetic on seconds.  The `tm`
structure is represented by days-since-epoch plus hour/minute/second fields;
the renormalisation by `mktime` of an out-of-range `tm_mday`/`tm_hour` is exact
day/second arithmetic in this model.  The epoch day (1970-01-01) was a
Thursday, hence weekday `(t / 86400 + 4) % 7` with Sunday = 0.

Machine integers (`uint8`, `uint32`, `uint64`, `time_t`) are modelled as
`Nat`; all quantities involved stay far below `2^32` for the concrete inputs
used, and the functions are shown to keep `nextResetTime ≥ now`, so the
`uint32` subtractions in the source never wrap for the cases the theorems
speak about.
-/

namespace ServerAutoShutdown

/-- `HOUR` constant of the host (seconds). -/
def HOUR : Nat := 3600

/-- `DAY` constant of the host (seconds). -/
def DAY : Nat := 86400

/-- `WEEK` constant of the host (seconds). -/
def WEEK : Nat := 604800

/-- The fields of C `struct tm` that the module reads or writes:
`days` stands for the full calendar date (days since epoch). -/
structure Tm where
  days : Nat
  hour : Nat
  min : Nat
  sec : Nat
  wday : Nat
  deriving DecidableEq, Repr

/-- `Acore::Time::TimeBreakdown` (localtime) in the UTC model. -/
def timeBreakdown (t : Nat) : Tm :=
  { days := t / 86400
    hour := t % 86400 / 3600
    min := t % 3600 / 60
    sec := t % 60
    wday := (t / 86400 + 4) % 7 }

/-- `mktime` in the UTC model: renormalise a (date, h, m, s) quadruple into
seconds since epoch. -/
def mkTime (days hour min sec : Nat) : Nat :=
  days * 86400 + hour * 3600 + min * 60 + sec

/-- Seconds-in-day of a clock time H:M:S. -/
def todSecs (h m s : Nat) : Nat := h * 3600 + m * 60 + s

/-- `GetNextResetTime(time, restartDays, restartHour, restartMinute,
restartSecond)` from the anonymous namespace: the date of today at the target
time-of-day, advanced by `restartDays` days when the period is multi-day or
the constructed time is not strictly in the future. -/
def getNextResetTime (time : Nat) (restartDays : Nat) (restartHour restartMinute restartSecond : Nat) : Nat :=
  let timeLocal := timeBreakdown time
  let midnightLocal := mkTime timeLocal.days restartHour restartMinute restartSecond
  if restartDays > 1 ∨ midnightLocal ≤ time then
    midnightLocal + DAY * restartDays
  else
    midnightLocal

/-- `GetNextWeekdayTime(now, weekday, restartHour, restartMinute,
restartSecond)`: next occurrence of the given weekday (0 = Sunday) at the
given clock time.  `daysUntil = (weekday - currentWeekday + 7) % 7`, written
here as `(weekday + 7 - currentWeekday) % 7`, which agrees with the C `int`
expression whenever both weekdays are in `0..6`. -/
def getNextWeekdayTime (now : Nat) (weekday : Nat) (restartHour restartMinute restartSecond : Nat) : Nat :=
  let timeLocal := timeBreakdown now
  let currentWeekday := timeLocal.wday
  let daysUntil0 := (weekday + 7 - currentWeekday) % 7
  let daysUntil :=
    if daysUntil0 = 0 ∧
        (timeLocal.hour > restartHour ∨
          (timeLocal.hour = restartHour ∧ timeLocal.min > restartMinute) ∨
          (timeLocal.hour = restartHour ∧ timeLocal.min = restartMinute ∧ timeLocal.sec ≥ restartSecond)) then
      7
    else
      daysUntil0
  mkTime (timeLocal.days + daysUntil) restartHour restartMinute restartSecond

/-- Wording of the spec for "the target time-of-day (hour, then minute, then
second, compared as a lexicographic triple) is at or before the time-of-day
of now" (used to compare against the condition of the source). -/
def todLexLe (h1 m1 s1 h2 m2 s2 : Nat) : Prop :=
  h1 < h2 ∨ (h1 = h2 ∧ (m1 < m2 ∨ (m1 = m2 ∧ s1 ≤ s2)))

instance (h1 m1 s1 h2 m2 s2 : Nat) : Decidable (todLexLe h1 m1 s1 h2 m2 s2) := by
  unfold todLexLe; infer_instance

/-- Worker for `Acore::Tokenize(str, sep, keepEmptyTokens = false)`:
`cur` is the current token accumulated in reverse. -/
def tokenizeGo (sep : Char) : List Char → List Char → List (List Char)
  | cur, [] => if cur = [] then [] else [cur.reverse]
  | cur, c :: cs =>
    if c = sep then
      if cur = [] then tokenizeGo sep [] cs else cur.reverse :: tokenizeGo sep [] cs
    else
      tokenizeGo sep (c :: cur) cs

/-- `Acore::Tokenize(str, sep, false)`: split on `sep`, dropping empty
tokens. -/
def tokenize (s : List Char) (sep : Char) : List (List Char) :=
  tokenizeGo sep [] s

/-- Value of a decimal digit character, `none` on a non-digit. -/
def digitVal (c : Char) : Option Nat :=
  if '0' ≤ c ∧ c ≤ '9' then some (c.toNat - 48) else none

/-- Accumulating decimal parse; fails on the first non-digit. -/
def parseNatGo : List Char → Nat → Option Nat
  | [], acc => some acc
  | c :: cs, acc =>
    match digitVal c with
    | some d => parseNatGo cs (acc * 10 + d)
    | none => none

/-- `std::from_chars` as used by `Acore::StringTo`: the whole string must be
consumed, so a valid input is a non-empty all-digit string. -/
def parseNat (s : List Char) : Option Nat :=
  if s = [] then none else parseNatGo s 0

/-- `Acore::StringTo<uint8>`: full-string decimal parse, `none` when the
value does not fit a `uint8` (from_chars reports out-of-range). -/
def stringToUInt8 (s : List Char) : Option Nat :=
  match parseNat s with
  | some v => if v ≤ 255 then some v else none
  | none => none

/-- `Acore::StringTo<uint32>`: full-string decimal parse, `none` when the
value does not fit a `uint32`. -/
def stringToUInt32 (s : List Char) : Option Nat :=
  match parseNat s with
  | some v => if v ≤ 4294967295 then some v else none
  | none => none

/-- Lines 92-123 of `Init`: tokenize `ServerAutoShutdown.Time` on colons and
require exactly three `uint8`-parsable fields. -/
def parseTimeConfig (s : List Char) : Option (Nat × Nat × Nat) :=
  match tokenize s ':' with
  | [t0, t1, t2] =>
    match stringToUInt8 t0, stringToUInt8 t1, stringToUInt8 t2 with
    | some h, some m, some sec => some (h, m, sec)
    | _, _, _ => none
  | _ => none

/-- The arithmetic payload of a (re)initialisation, i.e. the ShutdownPlan of
the spec: all five derived quantities of lines 164-203. -/
structure Plan where
  nextResetTime : Nat
  diffToShutdown : Nat
  timeToPreAnnounce : Nat
  diffToPreAnnounce : Nat
  /-- the `preAnnounceSeconds` value captured by the scheduled lambda -/
  effectivePreAnnounceSeconds : Nat
  deriving DecidableEq, Repr

/-- Lines 187-192: a configured lead time above one day is clamped to one
hour. -/
def clampPre (preAnnounceSeconds : Nat) : Nat :=
  if preAnnounceSeconds > DAY then HOUR else preAnnounceSeconds

/-- Lines 164-174 of `Init`: given the naive next occurrence `nrt0`, advance
one full period (a week in weekly mode, `everyDays` days otherwise) when the
occurrence is less than 10 seconds away.  Subtractions are `Nat`-truncated;
for `nrt0 ≥ now` (which the calculators guarantee) they agree with the
unsigned arithmetic of the source. -/
def advancedResetTime (isWeekly : Bool) (restartDays : Nat) (nrt0 now : Nat) : Nat :=
  if nrt0 - now < 10 then
    nrt0 + (if isWeekly then WEEK else DAY * restartDays)
  else
    nrt0

/-- Lines 164-203 of `Init` (see `advancedResetTime` for 164-174): clamp
the configured pre-announce lead, and collapse the pre-announce to 1 second
from now when the runway is shorter than the lead. -/
def buildPlan (isWeekly : Bool) (restartDays : Nat) (now : Nat) (nrt0 : Nat)
    (preAnnounceSecondsCfg : Nat) : Plan :=
  let nextResetTime := advancedResetTime isWeekly restartDays nrt0 now
  let diffToShutdown := nextResetTime - now
  let preAnnounceSeconds := clampPre preAnnounceSecondsCfg
  let timeToPreAnnounce := nextResetTime - preAnnounceSeconds
  let diffToPreAnnounce := timeToPreAnnounce - now
  if diffToShutdown < preAnnounceSeconds then
    { nextResetTime := nextResetTime
      diffToShutdown := diffToShutdown
      timeToPreAnnounce := now + 1
      diffToPreAnnounce := 1
      effectivePreAnnounceSeconds := diffToShutdown }
  else
    { nextResetTime := nextResetTime
      diffToShutdown := diffToShutdown
      timeToPreAnnounce := timeToPreAnnounce
      diffToPreAnnounce := diffToPreAnnounce
      effectivePreAnnounceSeconds := preAnnounceSeconds }

/-- The configuration options `Init` reads (already fetched from the config
provider). -/
structure SASConfig where
  enabled : Bool
  time : List Char
  weekday : Int
  everyDays : Nat
  preAnnounceSeconds : Nat
  deriving DecidableEq, Repr

/-- Observable outcome of one `Init` call: the final `_isEnableModule`
value, whether `scheduler.CancelAll()` / `sWorld->ShutdownCancel()` ran,
whether `StartPersistentGameEvents()` ran, the scheduled pre-announce task
(its delay and the lead-time value it captures) if any, and the plan. -/
structure InitResult where
  isEnableModule : Bool
  cancelledAll : Bool
  eventsStarted : Bool
  scheduledPreAnnounce : Option (Nat × Nat)
  plan : Option Plan
  deriving DecidableEq, Repr

/-- The result of every early-`return` failure path of `Init`: module
disabled, nothing cancelled, no events started, nothing scheduled. -/
def disabledInit : InitResult :=
  { isEnableModule := false
    cancelledAll := false
    eventsStarted := false
    scheduledPreAnnounce := none
    plan := none }

/-- Lines 143-162 of `Init`: the `if`/`else if` chain of range checks that
clears `_isEnableModule` but does NOT return. -/
def rangeChecksEnable (restartDays restartHour restartMinute restartSecond : Nat) : Bool :=
  if restartDays < 1 ∨ restartDays > 365 then false
  else if restartHour > 23 then false
  else if restartMinute ≥ 60 then false
  else if restartSecond ≥ 60 then false
  else true

/-- Lines 143-231 of `Init`: after the next occurrence has been computed the
range checks may clear the enable flag, but execution continues: the plan
arithmetic runs, all tasks are cancelled, game events are started and the
pre-announce task is scheduled unconditionally. -/
def initCommit (isWeekly : Bool) (restartDays restartHour restartMinute restartSecond : Nat)
    (nrt0 now preAnnounceSecondsCfg : Nat) : InitResult :=
  let en := rangeChecksEnable restartDays restartHour restartMinute restartSecond
  let plan := buildPlan isWeekly restartDays now nrt0 preAnnounceSecondsCfg
  { isEnableModule := en
    cancelledAll := true
    eventsStarted := true
    scheduledPreAnnounce := some (plan.diffToPreAnnounce, plan.effectivePreAnnounceSeconds)
    plan := some plan }

/-- `ServerAutoShutdown::Init` (lines 85-232), as a function from the fetched
configuration and the current time to the observable outcome. -/
def initModel (cfg : SASConfig) (now : Nat) : InitResult :=
  if cfg.enabled = false then disabledInit
  else
    match parseTimeConfig cfg.time with
    | none => disabledInit
    | some (restartHour, restartMinute, restartSecond) =>
      if 0 ≤ cfg.weekday ∧ cfg.weekday ≤ 6 then
        initCommit true cfg.everyDays restartHour restartMinute restartSecond
          (getNextWeekdayTime now cfg.weekday.toNat restartHour restartMinute restartSecond)
          now cfg.preAnnounceSeconds
      else if cfg.everyDays < 1 ∨ cfg.everyDays > 365 then disabledInit
      else
        initCommit false cfg.everyDays restartHour restartMinute restartSecond
          (getNextResetTime now cfg.everyDays restartHour restartMinute restartSecond)
          now cfg.preAnnounceSeconds

/-- Loop of `StartPersistentGameEvents` (lines 250-260): empty tokens are
skipped; a non-empty token is parsed with `Acore::StringTo<uint32>` and the
optional is dereferenced with no error branch — `none` models that
undefined dereference. -/
def startEventsGo : List (List Char) → List Nat → Option (List Nat)
  | [], acc => some acc.reverse
  | t :: ts, acc =>
    if t = [] then startEventsGo ts acc
    else
      match stringToUInt32 t with
      | some eventId => startEventsGo ts (eventId :: acc)
      | none => none

/-- `ServerAutoShutdown::StartPersistentGameEvents` (lines 243-261): the
list of event ids started, or `none` when a token fails to parse and the
empty optional is dereferenced. -/
def startPersistentGameEvents (eventList : List Char) : Option (List Nat) :=
  startEventsGo (tokenize eventList ' ') []

/-- A configuration whose time string parses (25 fits a `uint8`) but whose
hour fails the range check of line 148. -/
def hourOutOfRangeConfig : SASConfig :=
  { enabled := true
    time := "25:00:00".toList
    weekday := -1
    everyDays := 1
    preAnnounceSeconds := 3600 }

/-- Case of `buildPlan` where the runway is shorter than the clamped lead
time: the pre-announce collapses to one second from now. -/
lemma buildPlan_collapse (isWeekly : Bool) (restartDays now nrt0 preCfg : Nat)
    (h : advancedResetTime isWeekly restartDays nrt0 now - now < clampPre preCfg) :
    buildPlan isWeekly restartDays now nrt0 preCfg =
      { nextResetTime := advancedResetTime isWeekly restartDays nrt0 now
        diffToShutdown := advancedResetTime isWeekly restartDays nrt0 now - now
        timeToPreAnnounce := now + 1
        diffToPreAnnounce := 1
        effectivePreAnnounceSeconds := advancedResetTime isWeekly restartDays nrt0 now - now } := by
  simp only [buildPlan, if_pos h]

/-- Case of `buildPlan` where the runway is at least the clamped lead
time. -/
lemma buildPlan_noCollapse (isWeekly : Bool) (restartDays now nrt0 preCfg : Nat)
    (h : ¬ advancedResetTime isWeekly restartDays nrt0 now - now < clampPre preCfg) :
    buildPlan isWeekly restartDays now nrt0 preCfg =
      { nextResetTime := advancedResetTime isWeekly restartDays nrt0 now
        diffToShutdown := advancedResetTime isWeekly restartDays nrt0 now - now
        timeToPreAnnounce := advancedResetTime isWeekly restartDays nrt0 now - clampPre preCfg
        diffToPreAnnounce := advancedResetTime isWeekly restartDays nrt0 now - clampPre preCfg - now
        effectivePreAnnounceSeconds := clampPre preCfg } := by
  simp only [buildPlan, if_neg h]

/-- In every branch, `diffToShutdown` is the advanced occurrence minus
now. -/
lemma buildPlan_diffToShutdown (isWeekly : Bool) (restartDays now nrt0 preCfg : Nat) :
    (buildPlan isWeekly restartDays now nrt0 preCfg).diffToShutdown
      = advancedResetTime isWeekly restartDays nrt0 now - now := by
  by_cases h : advancedResetTime isWeekly restartDays nrt0 now - now < clampPre preCfg
  · rw [buildPlan_collapse _ _ _ _ _ h]
  · rw [buildPlan_noCollapse _ _ _ _ _ h]

/-- In every branch, `nextResetTime` is the advanced occurrence. -/
lemma buildPlan_nextResetTime (isWeekly : Bool) (restartDays now nrt0 preCfg : Nat) :
    (buildPlan isWeekly restartDays now nrt0 preCfg).nextResetTime
      = advancedResetTime isWeekly restartDays nrt0 now := by
  by_cases h : advancedResetTime isWeekly restartDays nrt0 now - now < clampPre preCfg
  · rw [buildPlan_collapse _ _ _ _ _ h]
  · rw [buildPlan_noCollapse _ _ _ _ _ h]

/-- Claim C2: when now already falls on the target weekday (`daysUntil ==
0`), `GetNextWeekdayTime` pushes the occurrence a full week ahead exactly
when the target time-of-day, as a lexicographic (hour, minute, second)
triple, is at or before the time-of-day of now; in particular exact
equality of all three fields pushes to next week, since the hour and minute
comparisons of the source are strict while its seconds comparison is
at-or-past. -/
theorem nextWeekday_sameDay_push_iff (now restartHour restartMinute restartSecond : Nat) :
    getNextWeekdayTime now (timeBreakdown now).wday restartHour restartMinute restartSecond
        = mkTime ((timeBreakdown now).days + 7) restartHour restartMinute restartSecond
      ↔ todLexLe restartHour restartMinute restartSecond
          (timeBreakdown now).hour (timeBreakdown now).min (timeBreakdown now).sec := by
  simp only [getNextWeekdayTime, timeBreakdown, mkTime, todLexLe]
  split_ifs with h <;> omega

/-- Claim C5: with a one-day period and a valid clock time,
`GetNextResetTime` lands on the same calendar day as now when the target
time-of-day is strictly after the time-of-day of now, on the following day
otherwise, and always at exactly H:M:S. -/
theorem nextPeriodic_one_day (now h m s : Nat) (hh : h ≤ 23) (hm : m ≤ 59) (hs : s ≤ 59) :
    (now % 86400 < todSecs h m s →
        getNextResetTime now 1 h m s / 86400 = now / 86400) ∧
    (todSecs h m s ≤ now % 86400 →
        getNextResetTime now 1 h m s / 86400 = now / 86400 + 1) ∧
    getNextResetTime now 1 h m s % 86400 = todSecs h m s := by
  simp only [getNextResetTime, timeBreakdown, mkTime, todSecs, DAY]
  split_ifs with hcond <;> refine ⟨?_, ?_, ?_⟩ <;> omega

/-- Witness for `nextPeriodic_one_day` at now = 0, target 04:00:00. -/
theorem nextPeriodic_one_day_witness :
    (0 % 86400 < todSecs 4 0 0 → getNextResetTime 0 1 4 0 0 / 86400 = 0 / 86400) ∧
    (todSecs 4 0 0 ≤ 0 % 86400 → getNextResetTime 0 1 4 0 0 / 86400 = 0 / 86400 + 1) ∧
    getNextResetTime 0 1 4 0 0 % 86400 = todSecs 4 0 0 :=
  nextPeriodic_one_day 0 4 0 0 (by decide) (by decide) (by decide)

/-- Claim C6: with a period of more than one day, `GetNextResetTime`
returns exactly `restartDays` days after the date of today at H:M:S,
whether or not that clock time has already passed today. -/
theorem nextPeriodic_multi_day (now h m s restartDays : Nat) (hd : restartDays > 1) :
    getNextResetTime now restartDays h m s = mkTime (now / 86400 + restartDays) h m s := by
  simp only [getNextResetTime, timeBreakdown, mkTime, DAY]
  split_ifs with hcond <;> omega

/-- Witness for `nextPeriodic_multi_day` at now = day 1, period 2 days. -/
theorem nextPeriodic_multi_day_witness :
    getNextResetTime 86400 2 4 0 0 = mkTime (86400 / 86400 + 2) 4 0 0 :=
  nextPeriodic_multi_day 86400 4 0 0 2 (by decide)

/-- Claim C7: for every weekday 0..6 and valid clock time, the timestamp
returned by `GetNextWeekdayTime` is never strictly before now and never
more than 7 days after now. -/
theorem nextWeekday_bounds (now w h m s : Nat) (hw : w ≤ 6) (hh : h ≤ 23) (hm : m ≤ 59) (hs : s ≤ 59) :
    now ≤ getNextWeekdayTime now w h m s ∧ getNextWeekdayTime now w h m s ≤ now + WEEK := by
  simp only [getNextWeekdayTime, timeBreakdown, mkTime, WEEK]
  split_ifs with hcond <;> constructor <;> omega

/-- Witness for `nextWeekday_bounds` at a Monday 04:00:00 local time with
target Monday (1) 04:00:00. -/
theorem nextWeekday_bounds_witness :
    360000 ≤ getNextWeekdayTime 360000 1 4 0 0 ∧
    getNextWeekdayTime 360000 1 4 0 0 ≤ 360000 + WEEK :=
  nextWeekday_bounds 360000 1 4 0 0 (by decide) (by decide) (by decide) (by decide)

/-- Claim C3: whenever the remaining runway `diffToShutdown` is strictly
below the (clamped) configured lead time, the emitted plan announces the
true remaining time (`effectivePreAnnounceSeconds = diffToShutdown`) and
schedules the pre-announce task one second from now. -/
theorem preAnnounce_collapse (isWeekly : Bool) (restartDays now nrt0 preCfg : Nat)
    (h : (buildPlan isWeekly restartDays now nrt0 preCfg).diffToShutdown < clampPre preCfg) :
    (buildPlan isWeekly restartDays now nrt0 preCfg).effectivePreAnnounceSeconds
        = (buildPlan isWeekly restartDays now nrt0 preCfg).diffToShutdown ∧
    (buildPlan isWeekly restartDays now nrt0 preCfg).diffToPreAnnounce = 1 ∧
    (buildPlan isWeekly restartDays now nrt0 preCfg).timeToPreAnnounce = now + 1 := by
  rw [buildPlan_diffToShutdown] at h
  rw [buildPlan_collapse _ _ _ _ _ h]
  exact ⟨rfl, rfl, rfl⟩

/-- Witness for `preAnnounce_collapse`: shutdown in 100 seconds with a 3600
second lead. -/
theorem preAnnounce_collapse_witness :
    (buildPlan false 1 0 100 3600).diffToShutdown < clampPre 3600 ∧
    ((buildPlan false 1 0 100 3600).effectivePreAnnounceSeconds
        = (buildPlan false 1 0 100 3600).diffToShutdown ∧
      (buildPlan false 1 0 100 3600).diffToPreAnnounce = 1 ∧
      (buildPlan false 1 0 100 3600).timeToPreAnnounce = 0 + 1) :=
  ⟨by decide, preAnnounce_collapse false 1 0 100 3600 (by decide)⟩

/-- Claim C4: when the computed next occurrence is less than 10 seconds
away, the plan advances exactly one full period — a week in weekly mode,
`restartDays` days in periodic mode — and the remaining seconds are
recomputed from the advanced occurrence. -/
theorem plan_advance_period (isWeekly : Bool) (restartDays now nrt0 preCfg : Nat)
    ( _hge : now ≤ nrt0) (hlt : nrt0 - now < 10) :
    (buildPlan isWeekly restartDays now nrt0 preCfg).nextResetTime
        = nrt0 + (if isWeekly then WEEK else DAY * restartDays) ∧
    (buildPlan isWeekly restartDays now nrt0 preCfg).diffToShutdown
        = nrt0 + (if isWeekly then WEEK else DAY * restartDays) - now := by
  rw [buildPlan_nextResetTime, buildPlan_diffToShutdown]
  unfold advancedResetTime
  rw [if_pos hlt]
  exact ⟨rfl, rfl⟩

/-- Witness for `plan_advance_period`: weekly mode, occurrence 5 seconds
away. -/
theorem plan_advance_period_witness :
    (100 ≤ 105 ∧ 105 - 100 < 10) ∧
    ((buildPlan true 1 100 105 3600).nextResetTime = 105 + (if true then WEEK else DAY * 1) ∧
      (buildPlan true 1 100 105 3600).diffToShutdown
        = 105 + (if true then WEEK else DAY * 1) - 100) :=
  ⟨by decide, plan_advance_period true 1 100 105 3600 (by decide) (by decide)⟩

/-- Claim C9: every plan emitted by the plan builder has an effective
pre-announce lead of at most the remaining time to shutdown, for all
inputs (in particular for every valid configuration and every now). -/
theorem plan_preAnnounce_le_shutdown (isWeekly : Bool) (restartDays now nrt0 preCfg : Nat) :
    (buildPlan isWeekly restartDays now nrt0 preCfg).effectivePreAnnounceSeconds
      ≤ (buildPlan isWeekly restartDays now nrt0 preCfg).diffToShutdown := by
  by_cases h : advancedResetTime isWeekly restartDays nrt0 now - now < clampPre preCfg
  · rw [buildPlan_collapse _ _ _ _ _ h]
  · rw [buildPlan_noCollapse _ _ _ _ _ h]
    exact Nat.le_of_not_lt h

/-- Claim C8: a configured pre-announce lead above one day (86400 s) is
clamped to one hour (3600 s) and the module behaves exactly as if 3600 had
been configured — in particular it is not disabled by the over-large
value. -/
theorem preAnnounce_over_day_clamped (cfg : SASConfig) (now : Nat)
    (hp : cfg.preAnnounceSeconds > 86400) :
    clampPre cfg.preAnnounceSeconds = 3600 ∧
    initModel cfg now
      = initModel ⟨cfg.enabled, cfg.time, cfg.weekday, cfg.everyDays, 3600⟩ now := by
  have hc : clampPre cfg.preAnnounceSeconds = 3600 := by
    simp only [clampPre, DAY, HOUR]
    exact if_pos hp
  have hc2 : clampPre cfg.preAnnounceSeconds = clampPre 3600 := by
    rw [hc]
    decide
  have hbp : ∀ iw rd nrt0, buildPlan iw rd now nrt0 cfg.preAnnounceSeconds
      = buildPlan iw rd now nrt0 3600 := by
    intro iw rd nrt0
    simp only [buildPlan, hc2]
  have hic : ∀ iw rd rh rm rs nrt0,
      initCommit iw rd rh rm rs nrt0 now cfg.preAnnounceSeconds
        = initCommit iw rd rh rm rs nrt0 now 3600 := by
    intro iw rd rh rm rs nrt0
    simp only [initCommit, hbp]
  refine ⟨hc, ?_⟩
  unfold initModel
  dsimp only
  by_cases hE : cfg.enabled = false
  · rw [if_pos hE, if_pos hE]
  · rw [if_neg hE, if_neg hE]
    rcases hT : parseTimeConfig cfg.time with _ | ⟨rh, rm, rs⟩
    · simp only [hT]
    · simp only [hT]
      by_cases hW : 0 ≤ cfg.weekday ∧ cfg.weekday ≤ 6
      · rw [if_pos hW, if_pos hW, hic]
      · rw [if_neg hW, if_neg hW]
        by_cases hD : cfg.everyDays < 1 ∨ cfg.everyDays > 365
        · rw [if_pos hD, if_pos hD]
        · rw [if_neg hD, if_neg hD, hic]

/-- Witness for `preAnnounce_over_day_clamped`: the scenario of the spec,
`PreAnnounce.Seconds = 90000`. -/
theorem preAnnounce_over_day_clamped_witness :
    clampPre 90000 = 3600 ∧
    initModel ⟨true, "04:00:00".toList, -1, 1, 90000⟩ 0
      = initModel ⟨true, "04:00:00".toList, -1, 1, 3600⟩ 0 :=
  preAnnounce_over_day_clamped ⟨true, "04:00:00".toList, -1, 1, 90000⟩ 0 (by decide)

/-- Claim C1, counterexample: with `Time = "25:00:00"` (hour out of range)
the module ends up disabled, yet `Init` still cancelled all previously
scheduled state, started the auxiliary game events, and scheduled a
pre-announce task — contradicting that on any validation failure no
pre-announce task is scheduled, no auxiliary events are started, and no
existing scheduled state is cancelled or replaced. -/
theorem init_disabled_yet_committed_cex :
    (initModel hourOutOfRangeConfig 0).isEnableModule = false ∧
    (initModel hourOutOfRangeConfig 0).cancelledAll = true ∧
    (initModel hourOutOfRangeConfig 0).eventsStarted = true ∧
    ((initModel hourOutOfRangeConfig 0).scheduledPreAnnounce).isSome = true := by
  decide

/-- Claim C1, amended: the module transitions to Disabled on every
validation failure, and the early-returning failures (malformed time
string; `EveryDays` out of [1,365] in periodic mode) commit nothing; but
the range checks of lines 143-162 (hour/minute/second out of range, or
`EveryDays` out of range in weekly mode) only clear the enable flag and
`Init` continues: it cancels the existing scheduled state, starts the
auxiliary events and schedules a pre-announce task anyway. -/
theorem init_commit_discipline (cfg : SASConfig) (now : Nat) (he : cfg.enabled = true) :
    (parseTimeConfig cfg.time = none → initModel cfg now = disabledInit) ∧
    (¬(0 ≤ cfg.weekday ∧ cfg.weekday ≤ 6) → (cfg.everyDays < 1 ∨ cfg.everyDays > 365) →
        initModel cfg now = disabledInit) ∧
    (∀ restartHour restartMinute restartSecond,
        parseTimeConfig cfg.time = some (restartHour, restartMinute, restartSecond) →
        ((0 ≤ cfg.weekday ∧ cfg.weekday ≤ 6) ∨ ¬(cfg.everyDays < 1 ∨ cfg.everyDays > 365)) →
        rangeChecksEnable cfg.everyDays restartHour restartMinute restartSecond = false →
        (initModel cfg now).isEnableModule = false ∧
        (initModel cfg now).cancelledAll = true ∧
        (initModel cfg now).eventsStarted = true ∧
        ((initModel cfg now).scheduledPreAnnounce).isSome = true) := by
  have hne : ¬ cfg.enabled = false := by simp [he]
  unfold initModel
  rw [if_neg hne]
  refine ⟨?_, ?_, ?_⟩
  · intro hT
    simp only [hT]
  · intro hW hD
    rcases hT : parseTimeConfig cfg.time with _ | ⟨rh, rm, rs⟩
    · simp only [hT]
    · simp only [hT]
      rw [if_neg hW, if_pos hD]
  · intro rh rm rs hT hsel hrange
    simp only [hT]
    by_cases hW : 0 ≤ cfg.weekday ∧ cfg.weekday ≤ 6
    · rw [if_pos hW]
      exact ⟨hrange, rfl, rfl, rfl⟩
    · rcases hsel with hsel | hD
      · exact absurd hsel hW
      · rw [if_neg hW, if_neg hD]
        exact ⟨hrange, rfl, rfl, rfl⟩

/-- Witness for `init_commit_discipline`, one concrete configuration per
conjunct: a malformed time string, an out-of-range `EveryDays` in periodic
mode, and a weekly-mode configuration whose `EveryDays` fails only the late
range check. -/
theorem init_commit_discipline_witness :
    initModel ⟨true, "xx".toList, -1, 1, 3600⟩ 0 = disabledInit ∧
    initModel ⟨true, "04:00:00".toList, -1, 400, 3600⟩ 0 = disabledInit ∧
    ((initModel ⟨true, "23:00:00".toList, 3, 400, 3600⟩ 0).isEnableModule = false ∧
      (initModel ⟨true, "23:00:00".toList, 3, 400, 3600⟩ 0).cancelledAll = true ∧
      (initModel ⟨true, "23:00:00".toList, 3, 400, 3600⟩ 0).eventsStarted = true ∧
      ((initModel ⟨true, "23:00:00".toList, 3, 400, 3600⟩ 0).scheduledPreAnnounce).isSome = true) :=
  ⟨(init_commit_discipline ⟨true, "xx".toList, -1, 1, 3600⟩ 0 rfl).1 (by decide),
    (init_commit_discipline ⟨true, "04:00:00".toList, -1, 400, 3600⟩ 0 rfl).2.1
      (by decide) (by decide),
    (init_commit_discipline ⟨true, "23:00:00".toList, 3, 400, 3600⟩ 0 rfl).2.2 23 0 0
      (by decide) (by decide) (by decide)⟩

/-- Helper for claim C10: if every non-empty token of the list parses as a
`uint32`, the loop of `StartPersistentGameEvents` never reaches the
empty-optional dereference. -/
lemma startEventsGo_isSome (ts : List (List Char)) (acc : List Nat)
    (h : ∀ t ∈ ts, t ≠ [] → (stringToUInt32 t).isSome = true) :
    (startEventsGo ts acc).isSome = true := by
  induction ts generalizing acc with
  | nil => rfl
  | cons t ts ih =>
    by_cases ht : t = []
    · simp only [startEventsGo, if_pos ht]
      exact ih _ fun u hu hne => h u (List.mem_cons_of_mem _ hu) hne
    · have hs : (stringToUInt32 t).isSome = true := h t (List.mem_cons_self _ _) ht
      obtain ⟨v, hv⟩ := Option.isSome_iff_exists.mp hs
      simp only [startEventsGo, if_neg ht, hv]
      exact ih _ fun u hu hne => h u (List.mem_cons_of_mem _ hu) hne

/-- Claim C10: under the precondition that every non-empty space-separated
token of the `StartEvents` string parses as a 32-bit unsigned integer,
`StartPersistentGameEvents` is total — the parse-failure branch (which the
source would answer with an unchecked dereference of an empty optional) is
unreachable. -/
theorem startEvents_total_of_parsable (eventList : List Char)
    (h : ∀ t ∈ tokenize eventList ' ', t ≠ [] → (stringToUInt32 t).isSome = true) :
    (startPersistentGameEvents eventList).isSome = true := by
  unfold startPersistentGameEvents
  exact startEventsGo_isSome _ _ h

/-- Witness for `startEvents_total_of_parsable` on the list "1 23". -/
theorem startEvents_total_witness :
    (∀ t ∈ tokenize ("1 23".toList) ' ', t ≠ [] → (stringToUInt32 t).isSome = true) ∧
    (startPersistentGameEvents ("1 23".toList)).isSome = true :=
  ⟨by decide, startEvents_total_of_parsable ("1 23".toList) (by decide)⟩

end ServerAutoShutdown
